import Mathlib

/-!
Verification of the signal-generation core of a crypto trading platform.

The development shallowly embeds the analyzer/screener core
(`src/analyzer/mtf.py`, `src/analyzer/levels.py`, `src/analyzer/signals.py`,
`src/screener/screener.py`, and the confluence step of
`src/analyzer/engine.py`) over exact rational arithmetic.  Python floats
are modelled as rationals; `round(x, d)` is modelled as round-half-to-even
on the decimal grid; a pandas NaN / missing column is modelled as `none`.
Technical-indicator internals (EMA, RSI, ATR, volume SMA) live in the
third-party `ta` library, which is not part of this repository; those are
modelled from the specification's exact definitions (spec section 4.1).
-/

/-! ### Decimal rounding (Python `round`) -/

/-- Round a rational to the nearest integer, ties to even
(the behaviour of Python's built-in `round`). -/
def rhe (x : ℚ) : ℤ :=
  if x - ⌊x⌋ < 1/2 then ⌊x⌋
  else if 1/2 < x - ⌊x⌋ then ⌊x⌋ + 1
  else if 2 ∣ ⌊x⌋ then ⌊x⌋ else ⌊x⌋ + 1

/-- Python's `round(x, d)`: round to `d` decimal places, ties to even. -/
def roundDec (d : ℕ) (x : ℚ) : ℚ := (rhe (x * 10 ^ d) : ℚ) / 10 ^ d

theorem rhe_le (x : ℚ) : (rhe x : ℚ) ≤ x + 1/2 := by
  have h1 : (⌊x⌋ : ℚ) ≤ x := Int.floor_le x
  have h2 : x < ⌊x⌋ + 1 := Int.lt_floor_add_one x
  unfold rhe
  split_ifs <;> push_cast <;> linarith

theorem le_rhe (x : ℚ) : x - 1/2 ≤ (rhe x : ℚ) := by
  have h1 : (⌊x⌋ : ℚ) ≤ x := Int.floor_le x
  have h2 : x < ⌊x⌋ + 1 := Int.lt_floor_add_one x
  unfold rhe
  split_ifs <;> push_cast <;> linarith

theorem rhe_mono {x y : ℚ} (h : x ≤ y) : rhe x ≤ rhe y := by
  by_contra hc
  have hlt : rhe y < rhe x := not_le.mp hc
  have h1 : rhe y + 1 ≤ rhe x := Int.add_one_le_iff.mpr hlt
  have h1q : (rhe y : ℚ) + 1 ≤ (rhe x : ℚ) := by exact_mod_cast h1
  have h2 := rhe_le x
  have h3 := le_rhe y
  have hyx : y ≤ x := by linarith
  have hxy : x = y := le_antisymm h hyx
  subst hxy
  exact absurd le_rfl hc

theorem rhe_intCast (n : ℤ) : rhe (n : ℚ) = n := by
  unfold rhe
  rw [Int.floor_intCast]
  rw [if_pos (by norm_num)]

theorem rhe_eq_of (n : ℤ) (x : ℚ) (h1 : (n : ℚ) - 1/2 < x) (h2 : x < (n : ℚ) + 1/2) :
    rhe x = n := by
  unfold rhe
  rcases le_or_lt (n : ℚ) x with hnx | hxn
  · have hf : ⌊x⌋ = n := Int.floor_eq_iff.mpr ⟨hnx, by push_cast; linarith⟩
    rw [hf, if_pos (by push_cast; linarith)]
  · have hf : ⌊x⌋ = n - 1 := by
      apply Int.floor_eq_iff.mpr
      constructor
      · push_cast; linarith
      · push_cast; linarith
    rw [hf, if_neg (by push_cast; linarith), if_pos (by push_cast; linarith)]
    ring

theorem roundDec_le (d : ℕ) (x : ℚ) : roundDec d x ≤ x + 1 / (2 * 10 ^ d) := by
  have hp : (0 : ℚ) < 10 ^ d := by positivity
  have h := rhe_le (x * 10 ^ d)
  rw [roundDec, div_le_iff hp]
  have he : (x + 1 / (2 * 10 ^ d)) * 10 ^ d = x * 10 ^ d + 1/2 := by
    field_simp
    ring
  rw [he]
  exact h

theorem le_roundDec (d : ℕ) (x : ℚ) : x - 1 / (2 * 10 ^ d) ≤ roundDec d x := by
  have hp : (0 : ℚ) < 10 ^ d := by positivity
  have h := le_rhe (x * 10 ^ d)
  rw [roundDec, le_div_iff hp]
  have he : (x - 1 / (2 * 10 ^ d)) * 10 ^ d = x * 10 ^ d - 1/2 := by
    field_simp
    ring
  rw [he]
  exact h

theorem roundDec_mono (d : ℕ) {x y : ℚ} (h : x ≤ y) : roundDec d x ≤ roundDec d y := by
  have hp : (0 : ℚ) < 10 ^ d := by positivity
  have h1 : x * 10 ^ d ≤ y * 10 ^ d := by
    exact mul_le_mul_of_nonneg_right h (le_of_lt hp)
  have h2 : (rhe (x * 10 ^ d) : ℚ) ≤ (rhe (y * 10 ^ d) : ℚ) := by
    exact_mod_cast rhe_mono h1
  rw [roundDec, roundDec]
  exact (div_le_div_right hp).mpr h2

theorem roundDec_lt (d : ℕ) {x y : ℚ} (h : 1 < (y - x) * 10 ^ d) :
    roundDec d x < roundDec d y := by
  have hp : (0 : ℚ) < 10 ^ d := by positivity
  have hgap : 1 / 10 ^ d < y - x := by
    rw [div_lt_iff hp]
    linarith
  have hhalf : 1 / (2 * 10 ^ d) + 1 / (2 * 10 ^ d) = 1 / (10 ^ d : ℚ) := by
    field_simp
    ring
  have h1 := roundDec_le d x
  have h2 := le_roundDec d y
  linarith

theorem roundDec_intCast (d : ℕ) (n : ℤ) : roundDec d (n : ℚ) = n := by
  have hp : (0 : ℚ) < 10 ^ d := by positivity
  rw [roundDec]
  have he : (n : ℚ) * 10 ^ d = ((n * 10 ^ d : ℤ) : ℚ) := by push_cast; ring
  rw [he, rhe_intCast]
  push_cast
  field_simp

theorem roundDec_eq_of (d : ℕ) (n : ℤ) (x : ℚ)
    (h1 : (n : ℚ) - 1/2 < x * 10 ^ d) (h2 : x * 10 ^ d < (n : ℚ) + 1/2) :
    roundDec d x = (n : ℚ) / 10 ^ d := by
  rw [roundDec, rhe_eq_of n _ h1 h2]

/-! ### Data model -/

/-- One OHLCV bar of a candle series (`{timestamp, open, high, low, close, volume}`;
the timestamp plays no role in the analyzed functions and is omitted). -/
structure Bar where
  «open» : ℚ
  high : ℚ
  low : ℚ
  close : ℚ
  volume : ℚ
deriving DecidableEq

/-- A clustered support/resistance level (`{"price": ..., "touches": ...}`,
`src/analyzer/levels.py`). -/
structure Level where
  price : ℚ
  touches : ℕ
deriving DecidableEq

/-- The level dictionary `{"support": [...], "resistance": [...]}` produced by
`find_support_resistance` and consumed by `generate_signals`. -/
structure LevelDict where
  support : List Level
  resistance : List Level

/-- The last row of an indicator-enriched DataFrame, restricted to the columns
read by `evaluate_long` / `evaluate_short` / `generate_signals`
(`src/analyzer/signals.py`).  `none` models a missing column or a NaN value,
which the source treats identically (`v is None or np.isnan(v)`). -/
structure Row where
  close : ℚ
  ema_trend : Option ℤ
  ema_200 : Option ℚ
  rsi_14 : Option ℚ
  macd_hist : Option ℚ
  vol_ratio : Option ℚ
  bb_middle : Option ℚ
  stochrsi_k : Option ℚ
  stochrsi_d : Option ℚ
  atr_14 : Option ℚ
deriving DecidableEq

/-- The tuple returned by `compute_sl_tp` (`src/analyzer/signals.py`):
`(stop_loss, tp1, tp2, tp3, risk_reward)`. -/
structure SlTp where
  stop_loss : ℚ
  tp1 : ℚ
  tp2 : ℚ
  tp3 : ℚ
  rr : ℚ
deriving DecidableEq

/-- The `SignalCandidate` dataclass of `src/analyzer/signals.py`. -/
structure SignalCandidate where
  symbol : String
  direction : String
  timeframe : String
  confidence : ℚ
  entry_price : ℚ
  stop_loss : ℚ
  take_profit_1 : ℚ
  take_profit_2 : ℚ
  take_profit_3 : ℚ
  risk_reward : ℚ
  position_size_pct : ℚ
  indicators : List (String × ℚ)
  reasons : List String
deriving DecidableEq

/-- The dict returned by `compute_score` (`src/screener/screener.py`).
In the short-series case the source returns only `{"score": 0, "skip": True}`;
the remaining keys are absent, modelled here as `none`. -/
structure ScreenerScore where
  score : ℚ
  skip : Bool
  trend : Option String
  trend_score : Option ℚ
  volume_score : Option ℚ
  volatility_score : Option ℚ
  rsi_score : Option ℚ
  rsi : Option ℚ
  volume_24h_usd : Option ℚ
  close : Option ℚ

/-! ### Indicators (modelled from the spec)

The repository's `compute_indicators` delegates the numeric work to the
third-party `ta` library (not part of this repository), so the indicator
recurrences below are modelled from the specification's exact definitions
(spec section 4.1); the repository code consuming them is embedded from
source.  Only the value at the last bar of a series is needed. -/

/-- Exponential weighted recurrence `y := alpha * x + (1 - alpha) * y`
started at `x0`, over the remaining observations. -/
def ewmFold (alpha : ℚ) (x0 : ℚ) (xs : List ℚ) : ℚ :=
  xs.foldl (fun acc v => alpha * v + (1 - alpha) * acc) x0

/-- Modelled from the spec: EMA over `close` with smoothing factor
`2/(period+1)` (spec 4.1), evaluated at the last bar; undefined (warm-up)
until `window` bars exist. -/
def emaLast (window : ℕ) (closes : List ℚ) : Option ℚ :=
  match closes with
  | [] => none
  | x :: xs =>
    if xs.length + 1 < window then none
    else some (ewmFold (2 / ((window : ℚ) + 1)) x xs)

/-- First differences of a series (`close.diff(1)` without the leading NaN). -/
def diffs : List ℚ → List ℚ
  | [] => []
  | [_] => []
  | a :: b :: rest => (b - a) :: diffs (b :: rest)

/-- Modelled from the spec: RSI(14), Wilder's smoothed average of gains and
losses (spec 4.1), at the last bar.  The first bar has no difference and
contributes zero gain and zero loss; when both smoothed averages are zero the
ratio is undefined (NaN), and when only the loss average is zero RSI is 100. -/
def rsiLast (closes : List ℚ) : Option ℚ :=
  if closes.length < 15 then none
  else
    let d := diffs closes
    let emaup := ewmFold (1/14) 0 (d.map (fun x => max x 0))
    let emadn := ewmFold (1/14) 0 (d.map (fun x => max (-x) 0))
    if emadn = 0 then (if emaup = 0 then none else some 100)
    else some (100 - 100 / (1 + emaup / emadn))

/-- Modelled from the spec: simple moving average of the trailing `window`
values, at the last index; undefined until `window` values exist. -/
def smaLast (window : ℕ) (xs : List ℚ) : Option ℚ :=
  if xs.length < window then none
  else some ((xs.drop (xs.length - window)).sum / (window : ℚ))

/-- Modelled from the spec: volume ratio = last volume / volume-SMA(20),
undefined if the SMA is zero, negative or undefined (spec 4.1; the source
guards with `np.where(vol_sma_20 > 0, ...)`). -/
def volRatioLast (df : List Bar) : Option ℚ :=
  let vols := df.map Bar.volume
  match smaLast 20 vols, vols.getLast? with
  | some s, some v => if 0 < s then some (v / s) else none
  | _, _ => none

/-- True ranges of the bars after the first, given the previous close:
`max(high - low, |high - prevClose|, |low - prevClose|)` (spec 4.1). -/
def trRest (prevClose : ℚ) : List Bar → List ℚ
  | [] => []
  | b :: bs =>
    max (b.high - b.low) (max |b.high - prevClose| |b.low - prevClose|) :: trRest b.close bs

/-- True-range series of a bar list; the first bar has no previous close and
its true range is `high - low`. -/
def trList : List Bar → List ℚ
  | [] => []
  | b :: bs => (b.high - b.low) :: trRest b.close bs

/-- Modelled from the spec: ATR(14), Wilder's average of true range
(spec 4.1) at the last bar: the first value is the mean of the first 14 true
ranges, then `atr := (13 * atr + tr) / 14`; undefined until 14 bars exist. -/
def atrLast (df : List Bar) : Option ℚ :=
  if df.length < 14 then none
  else
    let trs := trList df
    let init := (trs.take 14).sum / 14
    some ((trs.drop 14).foldl (fun a t => (13 * a + t) / 14) init)

/-! ### Multi-timeframe trend (`src/analyzer/mtf.py`) -/

/-- Minimum candles needed to compute indicators on the higher timeframe. -/
def MIN_CANDLES_HTF : ℕ := 210

/-- `compute_htf_trend` (`src/analyzer/mtf.py`): 1 when EMA21 > EMA50 and
close > EMA200 at the last bar, -1 when neither holds, 0 otherwise or on
insufficient data or any undefined indicator. -/
def compute_htf_trend (htf_df : List Bar) : ℤ :=
  if htf_df.length < MIN_CANDLES_HTF then 0
  else
    let closes := htf_df.map Bar.close
    match emaLast 21 closes, emaLast 50 closes, emaLast 200 closes, closes.getLast? with
    | some ema_21, some ema_50, some ema_200, some close =>
      if ema_50 < ema_21 ∧ ema_200 < close then 1
      else if ¬ema_50 < ema_21 ∧ ¬ema_200 < close then -1
      else 0
    | _, _, _, _ => 0

/-! ### Support/resistance levels (`src/analyzer/levels.py`) -/

/-- `nearest_support`: the maximum of the level prices strictly below `price`,
or `none` if no level qualifies (`max(below) if below else None`). -/
def nearest_support (levels : List Level) (price : ℚ) : Option ℚ :=
  match (levels.filter (fun lv => lv.price < price)).map Level.price with
  | [] => none
  | b :: bs => some (bs.foldl max b)

/-- `nearest_resistance`: the minimum of the level prices strictly above
`price`, or `none` if no level qualifies. -/
def nearest_resistance (levels : List Level) (price : ℚ) : Option ℚ :=
  match (levels.filter (fun lv => price < lv.price)).map Level.price with
  | [] => none
  | b :: bs => some (bs.foldl min b)

/-- `np.mean` of a list of rationals. -/
def mean (l : List ℚ) : ℚ := l.sum / (l.length : ℚ)

/-- The greedy clustering loop of `_cluster_levels`: a value joins the current
cluster when it lies within `tolerance_pct` percent of the cluster's running
mean, otherwise it starts a new cluster. -/
def clusterGo (tolerance_pct : ℚ) : List ℚ → List ℚ → List (List ℚ)
  | current, [] => [current]
  | current, v :: vs =>
    let center := mean current
    if |v - center| / center ≤ tolerance_pct / 100 then
      clusterGo tolerance_pct (current ++ [v]) vs
    else current :: clusterGo tolerance_pct [v] vs

/-- `_cluster_levels` (`src/analyzer/levels.py`): sort ascending, group
greedily by running mean, emit one `Level` per cluster (price = cluster mean
rounded to 8 decimals, touches = cluster size), stably sorted by touches
descending. -/
def cluster_levels (values : List ℚ) (tolerance_pct : ℚ) : List Level :=
  match List.insertionSort (· ≤ ·) values with
  | [] => []
  | s :: rest =>
    List.insertionSort (fun a b : Level => b.touches ≤ a.touches)
      ((clusterGo tolerance_pct [s] rest).map (fun c => ⟨roundDec 8 (mean c), c.length⟩))

/-! ### Signal rules (`src/analyzer/signals.py`) -/

/-- Minimum confidence to emit a signal. -/
def MIN_CONFIDENCE : ℚ := 55/100

/-- Default risk per trade (fraction of capital). -/
def DEFAULT_RISK_PCT : ℚ := 2/100

/-- ATR multiplier for the stop-loss. -/
def SL_ATR_MULTIPLIER : ℚ := 3/2

/-- R:R ratios for the three take-profit levels (`TP_RR_RATIOS`). -/
def TP_RR_1 : ℚ := 3/2

/-- Second R:R ratio. -/
def TP_RR_2 : ℚ := 5/2

/-- Third R:R ratio. -/
def TP_RR_3 : ℚ := 4

/-- `evaluate_long`: gates on `ema_trend == 1` and (when EMA200 is defined)
`close >= ema_200`, then accumulates confidence increments, finally clamped to
[0, 0.90] and rounded to 2 decimals.  The numeric interpolations inside some
reason strings of the source are elided; the tags are kept. -/
def evaluate_long (row : Row) (prev_row : Option Row) (higher_tf_trend : ℤ) :
    ℚ × List String :=
  if row.ema_trend ≠ some 1 then (0, [])
  else if (match row.ema_200 with | some e => decide (row.close < e) | none => false) then (0, [])
  else
    let st0 : ℚ × List String := (1/2, ["ema_21 > ema_50"])
    let st1 := match row.rsi_14 with
      | some rsi =>
        if 30 ≤ rsi ∧ rsi ≤ 50 then (st0.1 + 1/10, st0.2 ++ ["rsi_pullback"])
        else if 70 < rsi then (st0.1 - 1/10, st0.2 ++ ["rsi_overbought"])
        else st0
      | none => st0
    let st2 := match row.macd_hist with
      | some mh =>
        if 0 < mh then (st1.1 + 1/10, st1.2 ++ ["macd_bullish"])
        else match prev_row with
          | some p =>
            match p.macd_hist with
            | some pmh => if pmh < 0 then (st1.1 + 1/10, st1.2 ++ ["macd_cross_up"]) else st1
            | none => st1
          | none => st1
      | none => st1
    let st3 := match row.vol_ratio with
      | some vr => if 1 < vr then (st2.1 + 1/10, st2.2 ++ ["volume_above_avg"]) else st2
      | none => st2
    let st4 := match row.bb_middle with
      | some bm => if row.close < bm then (st3.1 + 1/20, st3.2 ++ ["price_below_bb_middle"]) else st3
      | none => st3
    let st5 := match row.stochrsi_k, row.stochrsi_d with
      | some k, some d => if d < k then (st4.1 + 1/20, st4.2 ++ ["stochrsi_bullish"]) else st4
      | _, _ => st4
    let st6 :=
      if higher_tf_trend = 1 then (st5.1 + 1/10, st5.2 ++ ["htf_trend_aligned"])
      else if higher_tf_trend = -1 then (st5.1 - 3/20, st5.2 ++ ["htf_trend_conflict"])
      else st5
    (roundDec 2 (max (min st6.1 (90/100)) 0), st6.2)

/-- `evaluate_short`: the mirror of `evaluate_long`. -/
def evaluate_short (row : Row) (prev_row : Option Row) (higher_tf_trend : ℤ) :
    ℚ × List String :=
  if row.ema_trend ≠ some (-1) then (0, [])
  else if (match row.ema_200 with | some e => decide (e < row.close) | none => false) then (0, [])
  else
    let st0 : ℚ × List String := (1/2, ["ema_21 < ema_50"])
    let st1 := match row.rsi_14 with
      | some rsi =>
        if 50 ≤ rsi ∧ rsi ≤ 70 then (st0.1 + 1/10, st0.2 ++ ["rsi_bounce"])
        else if rsi < 30 then (st0.1 - 1/10, st0.2 ++ ["rsi_oversold"])
        else st0
      | none => st0
    let st2 := match row.macd_hist with
      | some mh =>
        if mh < 0 then (st1.1 + 1/10, st1.2 ++ ["macd_bearish"])
        else match prev_row with
          | some p =>
            match p.macd_hist with
            | some pmh => if 0 < pmh then (st1.1 + 1/10, st1.2 ++ ["macd_cross_down"]) else st1
            | none => st1
          | none => st1
      | none => st1
    let st3 := match row.vol_ratio with
      | some vr => if 1 < vr then (st2.1 + 1/10, st2.2 ++ ["volume_above_avg"]) else st2
      | none => st2
    let st4 := match row.bb_middle with
      | some bm => if bm < row.close then (st3.1 + 1/20, st3.2 ++ ["price_above_bb_middle"]) else st3
      | none => st3
    let st5 := match row.stochrsi_k, row.stochrsi_d with
      | some k, some d => if k < d then (st4.1 + 1/20, st4.2 ++ ["stochrsi_bearish"]) else st4
      | _, _ => st4
    let st6 :=
      if higher_tf_trend = -1 then (st5.1 + 1/10, st5.2 ++ ["htf_trend_aligned"])
      else if higher_tf_trend = 1 then (st5.1 - 3/20, st5.2 ++ ["htf_trend_conflict"])
      else st5
    (roundDec 2 (max (min st6.1 (90/100)) 0), st6.2)

/-- The pre-rounding stop-loss of `compute_sl_tp`: ATR-based stop, replaced by
the nearest support/resistance (offset by an ATR/4 buffer) when that level is
tighter. -/
def sl_raw (direction : String) (entry atr : ℚ) (nearest_sr : Option ℚ) : ℚ :=
  let atr_risk := SL_ATR_MULTIPLIER * atr
  let buffer := atr * (1/4)
  if direction = "long" then
    let atr_sl := entry - atr_risk
    match nearest_sr with
    | some sr => if atr_sl < sr then sr - buffer else atr_sl
    | none => atr_sl
  else
    let atr_sl := entry + atr_risk
    match nearest_sr with
    | some sr => if sr < atr_sl then sr + buffer else atr_sl
    | none => atr_sl

/-- `compute_sl_tp` (`src/analyzer/signals.py`): stop-loss and the three
take-profits at R-multiples 1.5/2.5/4.0 of the risk, each rounded to 8
decimal places; the reported risk-reward is the first R-multiple. -/
def compute_sl_tp (direction : String) (entry atr : ℚ) (nearest_sr : Option ℚ) : SlTp :=
  let sl := sl_raw direction entry atr nearest_sr
  if direction = "long" then
    let risk := entry - sl
    ⟨roundDec 8 sl, roundDec 8 (entry + TP_RR_1 * risk), roundDec 8 (entry + TP_RR_2 * risk),
      roundDec 8 (entry + TP_RR_3 * risk), TP_RR_1⟩
  else
    let risk := sl - entry
    ⟨roundDec 8 sl, roundDec 8 (entry - TP_RR_1 * risk), roundDec 8 (entry - TP_RR_2 * risk),
      roundDec 8 (entry - TP_RR_3 * risk), TP_RR_1⟩

/-- `compute_position_size`: percent of capital such that `risk_pct` of
capital is lost when the stop is hit, capped at 20 and rounded to 1 decimal;
0 when the per-unit risk is not positive. -/
def compute_position_size (entry sl risk_pct : ℚ) : ℚ :=
  let risk_per_unit := |entry - sl| / entry
  if risk_per_unit ≤ 0 then 0
  else roundDec 1 (min (risk_pct / risk_per_unit * 100) 20)

/-- `_snapshot_indicators`, restricted to the columns carried by `Row`
(defined values only, rounded to 8 decimals, in the source's key order). -/
def snapshot_indicators (row : Row) : List (String × ℚ) :=
  (match row.ema_200 with | some v => [("ema_200", roundDec 8 v)] | none => []) ++
  (match row.macd_hist with | some v => [("macd_hist", roundDec 8 v)] | none => []) ++
  (match row.rsi_14 with | some v => [("rsi_14", roundDec 8 v)] | none => []) ++
  (match row.stochrsi_k with | some v => [("stochrsi_k", roundDec 8 v)] | none => []) ++
  (match row.stochrsi_d with | some v => [("stochrsi_d", roundDec 8 v)] | none => []) ++
  (match row.bb_middle with | some v => [("bb_middle", roundDec 8 v)] | none => []) ++
  (match row.atr_14 with | some v => [("atr_14", roundDec 8 v)] | none => []) ++
  (match row.ema_trend with | some v => [("ema_trend", roundDec 8 (v : ℚ))] | none => []) ++
  (match row.vol_ratio with | some v => [("vol_ratio", roundDec 8 v)] | none => [])

/-- `generate_signals` (`src/analyzer/signals.py`): evaluates only the last
candle; returns at most one candidate, the long side tried first.  The series
is the indicator-enriched DataFrame restricted to the columns the function
reads. -/
def generate_signals (df : List Row) (symbol timeframe : String)
    (higher_tf_trend : ℤ) (levels : Option LevelDict) : List SignalCandidate :=
  if df.length < 2 then []
  else
    match df.dropLast.getLast?, df.getLast? with
    | some prev_row, some row =>
      match row.atr_14 with
      | none => []
      | some atr =>
        if atr ≤ 0 then []
        else
          let entry := row.close
          let support_levels := match levels with | some l => l.support | none => []
          let resistance_levels := match levels with | some l => l.resistance | none => []
          let long_eval := evaluate_long row (some prev_row) higher_tf_trend
          if MIN_CONFIDENCE ≤ long_eval.1 then
            let sr := nearest_support support_levels entry
            let st := compute_sl_tp "long" entry atr sr
            let pos_size := compute_position_size entry st.stop_loss DEFAULT_RISK_PCT
            [⟨symbol, "long", timeframe, long_eval.1, roundDec 8 entry, st.stop_loss,
              st.tp1, st.tp2, st.tp3, st.rr, pos_size, snapshot_indicators row, long_eval.2⟩]
          else
            let short_eval := evaluate_short row (some prev_row) higher_tf_trend
            if MIN_CONFIDENCE ≤ short_eval.1 then
              let sr := nearest_resistance resistance_levels entry
              let st := compute_sl_tp "short" entry atr sr
              let pos_size := compute_position_size entry st.stop_loss DEFAULT_RISK_PCT
              [⟨symbol, "short", timeframe, short_eval.1, roundDec 8 entry, st.stop_loss,
                st.tp1, st.tp2, st.tp3, st.rr, pos_size, snapshot_indicators row, short_eval.2⟩]
            else []
    | _, _ => []

/-! ### Screener scorer (`src/screener/screener.py`) -/

/-- Minimum candles needed for screener analysis. -/
def MIN_CANDLES_SCREEN : ℕ := 50

/-- Trend sub-score: baseline 50, plus/minus 25 per EMA test, clamped to
[0, 100]. -/
def trendScore (ema_21 ema_50 ema_200 : Option ℚ) (close : ℚ) : ℚ :=
  let t1 := match ema_21, ema_50 with
    | some a, some b => if b < a then (50 : ℚ) + 25 else (50 : ℚ) - 25
    | _, _ => 50
  let t2 := match ema_200 with
    | some e => if e < close then t1 + 25 else t1 - 25
    | none => t1
  max (min t2 100) 0

/-- Volume sub-score: `min(vol_ratio * 50, 100)`, 50 when undefined. -/
def volumeScore (vol_ratio : Option ℚ) : ℚ :=
  match vol_ratio with
  | some r => min (r * 50) 100
  | none => 50

/-- Volatility sub-score from ATR percent of price: 100 on [1, 3], linear
below 1, decaying above 3 with floor 20; 50 when ATR is undefined or the
close is not positive. -/
def volatilityScore (atr : Option ℚ) (close : ℚ) : ℚ :=
  match atr with
  | some a =>
    if 0 < close then
      let atr_pct := a / close * 100
      if 1 ≤ atr_pct ∧ atr_pct ≤ 3 then 100
      else if atr_pct < 1 then atr_pct * 100
      else max (100 - (atr_pct - 3) * 20) 20
    else 50
  | none => 50

/-- RSI-setup sub-score: fixed values per band, 50 when undefined. -/
def rsiScore (rsi : Option ℚ) : ℚ :=
  match rsi with
  | some r =>
    if 30 ≤ r ∧ r ≤ 50 then 90
    else if 50 < r ∧ r ≤ 65 then 70
    else if 65 < r ∧ r ≤ 80 then 40
    else if r < 30 then 60
    else 20
  | none => 50

/-- `compute_score` (`src/screener/screener.py`): weighted composite of the
four sub-scores with weights 30/25/20/25, plus metadata; `skip` with score 0
on fewer than 50 bars. -/
def compute_score (df : List Bar) : ScreenerScore :=
  if df.length < MIN_CANDLES_SCREEN then
    ⟨0, true, none, none, none, none, none, none, none, none⟩
  else
    match df.getLast? with
    | none => ⟨0, true, none, none, none, none, none, none, none, none⟩
    | some last =>
      let closes := df.map Bar.close
      let close := last.close
      let trend_score := trendScore (emaLast 21 closes) (emaLast 50 closes) (emaLast 200 closes) close
      let trend_label :=
        if 70 ≤ trend_score then "bullish"
        else if trend_score ≤ 30 then "bearish"
        else "neutral"
      let volume_score := volumeScore (volRatioLast df)
      let volatility_score := volatilityScore (atrLast df) close
      let rsi := rsiLast closes
      let rsi_score := rsiScore rsi
      let composite := (trend_score * 30 + volume_score * 25 + volatility_score * 20 +
        rsi_score * 25) / (30 + 25 + 20 + 25)
      let vol_24h := if 24 ≤ df.length then ((df.drop (df.length - 24)).map Bar.volume).sum * close else 0
      ⟨roundDec 1 composite, false, some trend_label, some (roundDec 1 trend_score),
        some (roundDec 1 volume_score), some (roundDec 1 volatility_score),
        some (roundDec 1 rsi_score), rsi.map (fun r => roundDec 1 r),
        some (roundDec 0 vol_24h), some close⟩

/-! ### Multi-timeframe confluence step (`src/analyzer/engine.py`) -/

/-- Confidence boost per agreeing adjacent timeframe. -/
def CONFLUENCE_BOOST_PER_TF : ℚ := 8/100

/-- The confluence-boost step of `analyze_symbol` (`src/analyzer/engine.py`):
given the number of agreeing adjacent timeframes and the number of available
confluence series, boosts the candidate's confidence by
`min(agreements * 0.08, 0.20)` (rounded to 2 decimals), caps the result at
0.90 (rounded to 2 decimals) and appends a reason recording the agreement
ratio; the candidate is unchanged when no confluence series was available or
no timeframe agrees. -/
def apply_confluence_boost (candidate : SignalCandidate) (agreements total : ℕ) :
    SignalCandidate :=
  if total = 0 then candidate
  else if 0 < agreements then
    let boost := roundDec 2 (min ((agreements : ℚ) * CONFLUENCE_BOOST_PER_TF) (20/100))
    { candidate with
      confidence := roundDec 2 (min (candidate.confidence + boost) (90/100)),
      reasons := candidate.reasons ++
        ["mtf_confluence (" ++ toString agreements ++ "/" ++ toString total ++ ")"] }
  else candidate

/-! ### Helper lemmas -/

theorem ewmFold_const (alpha c : ℚ) : ∀ n, ewmFold alpha c (List.replicate n c) = c := by
  intro n
  induction n with
  | zero => rfl
  | succ m ih =>
    have hstep : alpha * c + (1 - alpha) * c = c := by ring
    calc ewmFold alpha c (List.replicate (m + 1) c)
        = ewmFold alpha (alpha * c + (1 - alpha) * c) (List.replicate m c) := by
          rw [List.replicate_succ]
          rfl
      _ = ewmFold alpha c (List.replicate m c) := by rw [hstep]
      _ = c := ih

theorem emaLast_replicate (w n : ℕ) (c : ℚ) (h1 : 1 ≤ n) (h2 : w ≤ n) :
    emaLast w (List.replicate n c) = some c := by
  obtain ⟨m, rfl⟩ : ∃ m, n = m + 1 := ⟨n - 1, by omega⟩
  rw [List.replicate_succ, emaLast]
  rw [List.length_replicate]
  rw [if_neg (by omega)]
  rw [ewmFold_const]

theorem getLast?_cons_replicate (n : ℕ) {α : Type} (a b : α) :
    (a :: List.replicate (n + 1) b).getLast? = some b := by
  induction n with
  | zero => rfl
  | succ m ih =>
    rw [List.replicate_succ]
    rw [List.getLast?_cons_cons]
    exact ih

theorem getLast?_replicate_succ (n : ℕ) {α : Type} (b : α) :
    (List.replicate (n + 1) b).getLast? = some b := by
  cases n with
  | zero => rfl
  | succ m =>
    rw [List.replicate_succ]
    exact getLast?_cons_replicate m b b

theorem foldl_max_spec (b : ℚ) (bs : List ℚ) :
    bs.foldl max b ∈ b :: bs ∧ ∀ x ∈ b :: bs, x ≤ bs.foldl max b := by
  induction bs generalizing b with
  | nil =>
    refine ⟨List.mem_singleton_self b, ?_⟩
    intro x hx
    rw [List.mem_singleton] at hx
    exact le_of_eq hx
  | cons c cs ih =>
    obtain ⟨hmem, hub⟩ := ih (max b c)
    constructor
    · have : List.foldl max b (c :: cs) = List.foldl max (max b c) cs := rfl
      rw [this]
      rcases List.mem_cons.mp hmem with h | h
      · rcases max_choice b c with hm | hm <;> rw [h, hm]
        · exact List.mem_cons_self _ _
        · exact List.mem_cons_of_mem _ (List.mem_cons_self _ _)
      · exact List.mem_cons_of_mem _ (List.mem_cons_of_mem _ h)
    · intro x hx
      have hgoal : List.foldl max b (c :: cs) = List.foldl max (max b c) cs := rfl
      rw [hgoal]
      rcases List.mem_cons.mp hx with h | h
      · subst h
        exact le_trans (le_max_left x c) (hub _ (List.mem_cons_self _ _))
      · rcases List.mem_cons.mp h with h2 | h2
        · subst h2
          exact le_trans (le_max_right b x) (hub _ (List.mem_cons_self _ _))
        · exact hub _ (List.mem_cons_of_mem _ h2)

theorem foldl_min_spec (b : ℚ) (bs : List ℚ) :
    bs.foldl min b ∈ b :: bs ∧ ∀ x ∈ b :: bs, bs.foldl min b ≤ x := by
  induction bs generalizing b with
  | nil =>
    refine ⟨List.mem_singleton_self b, ?_⟩
    intro x hx
    rw [List.mem_singleton] at hx
    exact le_of_eq hx.symm
  | cons c cs ih =>
    obtain ⟨hmem, hlb⟩ := ih (min b c)
    constructor
    · have : List.foldl min b (c :: cs) = List.foldl min (min b c) cs := rfl
      rw [this]
      rcases List.mem_cons.mp hmem with h | h
      · rcases min_choice b c with hm | hm <;> rw [h, hm]
        · exact List.mem_cons_self _ _
        · exact List.mem_cons_of_mem _ (List.mem_cons_self _ _)
      · exact List.mem_cons_of_mem _ (List.mem_cons_of_mem _ h)
    · intro x hx
      have hgoal : List.foldl min b (c :: cs) = List.foldl min (min b c) cs := rfl
      rw [hgoal]
      rcases List.mem_cons.mp hx with h | h
      · subst h
        exact le_trans (hlb _ (List.mem_cons_self _ _)) (min_le_left x c)
      · rcases List.mem_cons.mp h with h2 | h2
        · subst h2
          exact le_trans (hlb _ (List.mem_cons_self _ _)) (min_le_right b x)
        · exact hlb _ (List.mem_cons_of_mem _ h2)

theorem trRest_nonneg (pc : ℚ) (bs : List Bar) :
    ∀ x ∈ trRest pc bs, 0 ≤ x := by
  induction bs generalizing pc with
  | nil => intro x hx; simp [trRest] at hx
  | cons b rest ih =>
    intro x hx
    rw [trRest] at hx
    rcases List.mem_cons.mp hx with h | h
    · subst h
      exact le_trans (abs_nonneg _) (le_trans (le_max_left _ _) (le_max_right _ _))
    · exact ih b.close x h

theorem trList_nonneg (df : List Bar) (hhl : ∀ b ∈ df, b.low ≤ b.high) :
    ∀ x ∈ trList df, 0 ≤ x := by
  cases df with
  | nil => intro x hx; simp [trList] at hx
  | cons b rest =>
    intro x hx
    rw [trList] at hx
    rcases List.mem_cons.mp hx with h | h
    · subst h
      have := hhl b (List.mem_cons_self _ _)
      linarith
    · exact trRest_nonneg b.close rest x h

theorem wilderFold_nonneg (init : ℚ) (l : List ℚ) (h0 : 0 ≤ init)
    (hl : ∀ x ∈ l, 0 ≤ x) : 0 ≤ l.foldl (fun a t => (13 * a + t) / 14) init := by
  induction l generalizing init with
  | nil => exact h0
  | cons t rest ih =>
    have ht : 0 ≤ t := hl t (List.mem_cons_self _ _)
    have hstep : 0 ≤ (13 * init + t) / 14 := by positivity
    exact ih _ hstep (fun x hx => hl x (List.mem_cons_of_mem _ hx))

theorem atrLast_nonneg (df : List Bar) (hhl : ∀ b ∈ df, b.low ≤ b.high) :
    ∀ a, atrLast df = some a → 0 ≤ a := by
  intro a ha
  rw [atrLast] at ha
  split_ifs at ha with hlen
  have htr := trList_nonneg df hhl
  have hinit : 0 ≤ ((trList df).take 14).sum / 14 := by
    have : 0 ≤ ((trList df).take 14).sum :=
      List.sum_nonneg (fun x hx => htr x (List.take_subset _ _ hx))
    positivity
  have hfold := wilderFold_nonneg _ ((trList df).drop 14) hinit
    (fun x hx => htr x (List.drop_subset _ _ hx))
  simp only [Option.some.injEq] at ha
  rw [← ha]
  exact hfold

theorem volRatioLast_nonneg (df : List Bar) (hvol : ∀ b ∈ df, 0 ≤ b.volume) :
    ∀ r, volRatioLast df = some r → 0 ≤ r := by
  intro r hr
  rw [volRatioLast] at hr
  rcases hs : smaLast 20 (df.map Bar.volume) with _ | s
  · rw [hs] at hr; exact absurd hr (by simp)
  · rcases hv : (df.map Bar.volume).getLast? with _ | v
    · rw [hs, hv] at hr; exact absurd hr (by simp)
    · rw [hs, hv] at hr
      simp only [] at hr
      split_ifs at hr with hspos
      have hveq : v / s = r := Option.some_injective _ hr
      have hvmem : v ∈ df.map Bar.volume := List.mem_of_mem_getLast? hv
      obtain ⟨b, hb, hbv⟩ := List.mem_map.mp hvmem
      have hv0 : 0 ≤ v := hbv ▸ hvol b hb
      rw [← hveq]
      positivity

theorem roundDec_zero (d : ℕ) : roundDec d 0 = 0 := by
  have h := roundDec_intCast d 0
  simpa using h

theorem roundDec_hundred (d : ℕ) : roundDec d 100 = 100 := by
  have h := roundDec_intCast d 100
  simpa using h

theorem roundDec_range (d : ℕ) {x : ℚ} (h0 : 0 ≤ x) (h1 : x ≤ 100) :
    0 ≤ roundDec d x ∧ roundDec d x ≤ 100 := by
  constructor
  · have := roundDec_mono d h0
    rwa [roundDec_zero] at this
  · have := roundDec_mono d h1
    rwa [roundDec_hundred] at this

theorem trendScore_range (e21 e50 e200 : Option ℚ) (c : ℚ) :
    0 ≤ trendScore e21 e50 e200 c ∧ trendScore e21 e50 e200 c ≤ 100 := by
  unfold trendScore
  constructor
  · exact le_max_right _ _
  · exact max_le (min_le_right _ _) (by norm_num)

theorem volumeScore_range (vr : Option ℚ) (h : ∀ r, vr = some r → 0 ≤ r) :
    0 ≤ volumeScore vr ∧ volumeScore vr ≤ 100 := by
  unfold volumeScore
  cases vr with
  | none => norm_num
  | some r =>
    have hr : 0 ≤ r := h r rfl
    constructor
    · exact le_min (by positivity) (by norm_num)
    · exact min_le_right _ _

theorem volatilityScore_range (atr : Option ℚ) (c : ℚ) (h : ∀ a, atr = some a → 0 ≤ a) :
    0 ≤ volatilityScore atr c ∧ volatilityScore atr c ≤ 100 := by
  cases atr with
  | none =>
    have hval : volatilityScore none c = 50 := rfl
    rw [hval]
    norm_num
  | some a =>
    have ha : 0 ≤ a := h a rfl
    have hval : volatilityScore (some a) c =
        if 0 < c then
          (if 1 ≤ a / c * 100 ∧ a / c * 100 ≤ 3 then 100
           else if a / c * 100 < 1 then a / c * 100 * 100
           else max (100 - (a / c * 100 - 3) * 20) 20)
        else 50 := rfl
    rw [hval]
    by_cases hc : 0 < c
    · rw [if_pos hc]
      have hp0 : 0 ≤ a / c * 100 := by positivity
      by_cases hband : 1 ≤ a / c * 100 ∧ a / c * 100 ≤ 3
      · rw [if_pos hband]
        norm_num
      · rw [if_neg hband]
        by_cases hlow : a / c * 100 < 1
        · rw [if_pos hlow]
          constructor
          · positivity
          · nlinarith
        · rw [if_neg hlow]
          push_neg at hband hlow
          have h3 : 3 < a / c * 100 := hband hlow
          constructor
          · exact le_trans (by norm_num) (le_max_right _ _)
          · exact max_le (by nlinarith) (by norm_num)
    · rw [if_neg hc]
      norm_num

theorem rsiScore_range (rsi : Option ℚ) : 0 ≤ rsiScore rsi ∧ rsiScore rsi ≤ 100 := by
  cases rsi with
  | none =>
    have hval : rsiScore none = 50 := rfl
    rw [hval]
    norm_num
  | some r =>
    have hval : rsiScore (some r) =
        if 30 ≤ r ∧ r ≤ 50 then 90
        else if 50 < r ∧ r ≤ 65 then 70
        else if 65 < r ∧ r ≤ 80 then 40
        else if r < 30 then 60
        else 20 := rfl
    rw [hval]
    split_ifs <;> norm_num

/-! ### Claims -/

/-- C5: for any series shorter than the component's stated minimum the
component returns its empty/neutral result: `generate_signals` on fewer than
2 bars returns the empty list, `compute_htf_trend` on fewer than 210 bars
returns 0, and `compute_score` on fewer than 50 bars returns skip with
score 0.  (All embedded functions are total, so no exception can occur.) -/
theorem claim_C5 :
    (∀ (df : List Row) (s tf : String) (htf : ℤ) (lv : Option LevelDict),
      df.length < 2 → generate_signals df s tf htf lv = []) ∧
    (∀ df : List Bar, df.length < 210 → compute_htf_trend df = 0) ∧
    (∀ df : List Bar, df.length < 50 →
      (compute_score df).skip = true ∧ (compute_score df).score = 0) := by
  refine ⟨?_, ?_, ?_⟩
  · intro df s tf htf lv h
    unfold generate_signals
    rw [if_pos h]
  · intro df h
    unfold compute_htf_trend
    rw [if_pos (show df.length < MIN_CANDLES_HTF from h)]
  · intro df h
    unfold compute_score
    rw [if_pos (show df.length < MIN_CANDLES_SCREEN from h)]
    exact ⟨rfl, rfl⟩

/-- Witness for C5 at concrete empty series. -/
theorem claim_C5_witness :
    generate_signals [] "" "" 0 none = [] ∧ compute_htf_trend [] = 0 ∧
    ((compute_score []).skip = true ∧ (compute_score []).score = 0) :=
  ⟨claim_C5.1 [] "" "" 0 none (by norm_num),
   claim_C5.2.1 [] (by norm_num),
   claim_C5.2.2 [] (by norm_num)⟩

/-- C10: `generate_signals` returns the empty list whenever the last bar's
ATR-14 is undefined or non-positive, regardless of the long/short
evaluations. -/
theorem claim_C10 (df : List Row) (s tf : String) (htf : ℤ) (lv : Option LevelDict)
    (hlen : 2 ≤ df.length)
    (hatr : ∀ row, df.getLast? = some row →
      row.atr_14 = none ∨ ∃ a, row.atr_14 = some a ∧ a ≤ 0) :
    generate_signals df s tf htf lv = [] := by
  unfold generate_signals
  rw [if_neg (not_lt.mpr hlen)]
  rcases hd : df.dropLast.getLast? with _ | prev
  · rfl
  · rcases hl : df.getLast? with _ | row
    · rfl
    · dsimp only
      rcases hatr row hl with hA | ⟨a, hA, ha⟩
      · rw [hA]
      · rw [hA]
        dsimp only
        rw [if_pos ha]

/-- Witness for C10 at a concrete 2-row series with undefined ATR. -/
theorem claim_C10_witness :
    generate_signals [⟨1, some 1, none, none, none, none, none, none, none, none⟩,
      ⟨1, some 1, none, none, none, none, none, none, none, none⟩] "S" "1h" 0 none = [] := by
  apply claim_C10
  · norm_num
  · intro row hrow
    left
    simp at hrow
    rw [← hrow]

/-- C3: position sizing returns 0 when the stop equals the entry, equals the
capped and rounded formula otherwise, and never exceeds 20 percent. -/
theorem claim_C3 (entry sl risk_pct : ℚ) (hentry : 0 < entry) :
    (sl = entry → compute_position_size entry sl risk_pct = 0) ∧
    (0 ≤ risk_pct → compute_position_size entry sl risk_pct ≤ 20) ∧
    (sl ≠ entry → compute_position_size entry sl risk_pct =
      roundDec 1 (min (risk_pct / (|entry - sl| / entry) * 100) 20)) := by
  have hiff : (|entry - sl| / entry ≤ 0) ↔ sl = entry := by
    constructor
    · intro hle
      by_contra hne
      have hsub : entry - sl ≠ 0 := sub_ne_zero.mpr (fun he => hne he.symm)
      have hpos : 0 < |entry - sl| := abs_pos.mpr hsub
      have : 0 < |entry - sl| / entry := div_pos hpos hentry
      linarith
    · intro h
      subst h
      simp
  have h20 : roundDec 1 (20 : ℚ) = 20 := by
    have := roundDec_intCast 1 20
    simpa using this
  refine ⟨?_, ?_, ?_⟩
  · intro h
    simp only [compute_position_size]
    rw [if_pos (hiff.mpr h)]
  · intro hrp
    simp only [compute_position_size]
    split_ifs with hle
    · norm_num
    · have hmin : min (risk_pct / (|entry - sl| / entry) * 100) 20 ≤ 20 := min_le_right _ _
      have := roundDec_mono 1 hmin
      rw [h20] at this
      exact this
  · intro hne
    simp only [compute_position_size]
    rw [if_neg (fun hle => hne (hiff.mp hle))]

/-- Witness for C3 at concrete inputs. -/
theorem claim_C3_witness :
    compute_position_size 100 100 (2/100) = 0 ∧
    compute_position_size 100 98 (2/100) ≤ 20 :=
  ⟨(claim_C3 100 100 (2/100) (by norm_num)).1 rfl,
   (claim_C3 100 98 (2/100) (by norm_num)).2.1 (by norm_num)⟩

/-- C8: the confluence step boosts confidence by
`min(agreements * 0.08, 0.20)` rounded to 2 decimals, caps the new confidence
at 0.90 rounded to 2 decimals, appends exactly one reason recording the
agreement ratio, and leaves the candidate unchanged with zero agreements or
no confluence data; with 2 of 2 agreeing timeframes the boost is 0.16. -/
theorem claim_C8 (c : SignalCandidate) (agreements total : ℕ) :
    (1 ≤ agreements → 0 < total →
      (apply_confluence_boost c agreements total).confidence =
        roundDec 2 (min (c.confidence +
          roundDec 2 (min ((agreements : ℚ) * (8/100)) (20/100))) (90/100)) ∧
      (apply_confluence_boost c agreements total).reasons =
        c.reasons ++
          ["mtf_confluence (" ++ toString agreements ++ "/" ++ toString total ++ ")"]) ∧
    (agreements = 0 → apply_confluence_boost c agreements total = c) ∧
    (total = 0 → apply_confluence_boost c agreements total = c) ∧
    roundDec 2 (min ((2 : ℚ) * (8/100)) (20/100)) = 16/100 := by
  refine ⟨?_, ?_, ?_, ?_⟩
  · intro h1 h2
    unfold apply_confluence_boost
    rw [if_neg (by omega), if_pos (by omega)]
    exact ⟨rfl, rfl⟩
  · intro h
    subst h
    unfold apply_confluence_boost
    split_ifs with h1 h2
    · rfl
    · omega
    · rfl
  · intro h
    subst h
    unfold apply_confluence_boost
    rw [if_pos rfl]
  · have hmin : min ((2 : ℚ) * (8/100)) (20/100) = 16/100 := by
      rw [min_eq_left (by norm_num)]
      norm_num
    rw [hmin]
    have h := roundDec_eq_of 2 16 (16/100) (by norm_num) (by norm_num)
    rw [h]
    norm_num

/-- Witness for C8: a concrete boosted candidate. -/
theorem claim_C8_witness :
    (apply_confluence_boost
      ⟨"BTCUSDT", "long", "1h", 60/100, 100, 98, 103, 105, 108, 3/2, 20, [], []⟩ 2 2).confidence =
      roundDec 2 (min ((60/100 : ℚ) +
        roundDec 2 (min ((2 : ℚ) * (8/100)) (20/100))) (90/100)) :=
  ((claim_C8 ⟨"BTCUSDT", "long", "1h", 60/100, 100, 98, 103, 105, 108, 3/2, 20, [], []⟩ 2 2).1
    (by norm_num) (by norm_num)).1

/-- C6: `nearest_support` returns the highest level price strictly below the
given price (`none` when no level is strictly below), `nearest_resistance`
the lowest level price strictly above (`none` when none qualifies); in
particular for supports 90 (3 touches) and 95 (2 touches) the nearest support
at 97 is 95 and at 89 is none. -/
theorem claim_C6 :
    (∀ (levels : List Level) (price m : ℚ), nearest_support levels price = some m →
      (∃ lv ∈ levels, lv.price = m) ∧ m < price ∧
        ∀ lv ∈ levels, lv.price < price → lv.price ≤ m) ∧
    (∀ (levels : List Level) (price : ℚ),
      nearest_support levels price = none ↔ ∀ lv ∈ levels, ¬lv.price < price) ∧
    (∀ (levels : List Level) (price m : ℚ), nearest_resistance levels price = some m →
      (∃ lv ∈ levels, lv.price = m) ∧ price < m ∧
        ∀ lv ∈ levels, price < lv.price → m ≤ lv.price) ∧
    nearest_support [⟨90, 3⟩, ⟨95, 2⟩] 97 = some 95 ∧
    nearest_support [⟨90, 3⟩, ⟨95, 2⟩] 89 = none := by
  refine ⟨?_, ?_, ?_, ?_, ?_⟩
  · intro levels price m h
    unfold nearest_support at h
    rcases hfm : (levels.filter (fun lv => lv.price < price)).map Level.price with _ | ⟨b, bs⟩
    · rw [hfm] at h
      exact absurd h (by simp)
    · rw [hfm] at h
      dsimp only at h
      have hm : bs.foldl max b = m := Option.some.inj h
      obtain ⟨hmem, hub⟩ := foldl_max_spec b bs
      have hmem2 : m ∈ (levels.filter (fun lv => lv.price < price)).map Level.price := by
        rw [hfm]
        exact hm ▸ hmem
      obtain ⟨lv, hlv, hlvp⟩ := List.mem_map.mp hmem2
      obtain ⟨hlvmem, hlvlt⟩ := List.mem_filter.mp hlv
      have hlt : lv.price < price := of_decide_eq_true hlvlt
      refine ⟨⟨lv, hlvmem, hlvp⟩, hlvp ▸ hlt, ?_⟩
      intro lv2 hlv2 hlt2
      have hin : lv2.price ∈ b :: bs := by
        rw [← hfm]
        exact List.mem_map.mpr ⟨lv2, List.mem_filter.mpr ⟨hlv2, decide_eq_true hlt2⟩, rfl⟩
      exact hm ▸ hub _ hin
  · intro levels price
    unfold nearest_support
    rcases hfm : (levels.filter (fun lv => lv.price < price)).map Level.price with _ | ⟨b, bs⟩
    · rw [hfm]
      have hfilt : levels.filter (fun lv => lv.price < price) = [] := by
        exact List.map_eq_nil.mp hfm
      simp only [true_iff]
      intro lv hlv hlt
      exact (List.filter_eq_nil.mp hfilt lv hlv) (decide_eq_true hlt)
    · rw [hfm]
      dsimp only
      apply iff_of_false
      · simp
      · intro hall
        have hb : b ∈ (levels.filter (fun lv => lv.price < price)).map Level.price := by
          rw [hfm]
          exact List.mem_cons_self _ _
        obtain ⟨lv, hlv, hlvp⟩ := List.mem_map.mp hb
        obtain ⟨hmem, hdec⟩ := List.mem_filter.mp hlv
        exact hall lv hmem (of_decide_eq_true hdec)
  · intro levels price m h
    unfold nearest_resistance at h
    rcases hfm : (levels.filter (fun lv => price < lv.price)).map Level.price with _ | ⟨b, bs⟩
    · rw [hfm] at h
      exact absurd h (by simp)
    · rw [hfm] at h
      dsimp only at h
      have hm : bs.foldl min b = m := Option.some.inj h
      obtain ⟨hmem, hlb⟩ := foldl_min_spec b bs
      have hmem2 : m ∈ (levels.filter (fun lv => price < lv.price)).map Level.price := by
        rw [hfm]
        exact hm ▸ hmem
      obtain ⟨lv, hlv, hlvp⟩ := List.mem_map.mp hmem2
      obtain ⟨hlvmem, hlvlt⟩ := List.mem_filter.mp hlv
      have hlt : price < lv.price := of_decide_eq_true hlvlt
      refine ⟨⟨lv, hlvmem, hlvp⟩, hlvp ▸ hlt, ?_⟩
      intro lv2 hlv2 hlt2
      have hin : lv2.price ∈ b :: bs := by
        rw [← hfm]
        exact List.mem_map.mpr ⟨lv2, List.mem_filter.mpr ⟨hlv2, decide_eq_true hlt2⟩, rfl⟩
      exact hm ▸ hlb _ hin
  · unfold nearest_support
    norm_num [List.filter_cons, decide_eq_true_eq, max_def]
  · unfold nearest_support
    norm_num [List.filter_cons, decide_eq_true_eq]

/-- Witness for C6: the soundness part applied at a concrete level set. -/
theorem claim_C6_witness :
    (∃ lv ∈ [(⟨90, 3⟩ : Level), ⟨95, 2⟩], lv.price = 95) ∧ (95 : ℚ) < 97 ∧
      ∀ lv ∈ [(⟨90, 3⟩ : Level), ⟨95, 2⟩], lv.price < 97 → lv.price ≤ 95 :=
  claim_C6.1 [⟨90, 3⟩, ⟨95, 2⟩] 97 95 claim_C6.2.2.2.1

/-- C1 (amended): on at least 210 bars with all three EMAs defined,
`compute_htf_trend` returns +1 exactly when EMA21 > EMA50 and close > EMA200,
-1 exactly when EMA21 <= EMA50 and close <= EMA200 (non-strict, unlike the
original claim), and 0 in the mixed cases; fewer than 210 bars gives 0. -/
theorem claim_C1 (df : List Bar) :
    (df.length < 210 → compute_htf_trend df = 0) ∧
    (∀ e21 e50 e200 c : ℚ, 210 ≤ df.length →
      emaLast 21 (df.map Bar.close) = some e21 →
      emaLast 50 (df.map Bar.close) = some e50 →
      emaLast 200 (df.map Bar.close) = some e200 →
      (df.map Bar.close).getLast? = some c →
      compute_htf_trend df =
        if e50 < e21 ∧ e200 < c then 1
        else if e21 ≤ e50 ∧ c ≤ e200 then -1
        else 0) := by
  constructor
  · intro h
    unfold compute_htf_trend
    rw [if_pos (show df.length < MIN_CANDLES_HTF from h)]
  · intro e21 e50 e200 c hlen h21 h50 h200 hc
    unfold compute_htf_trend
    rw [if_neg (show ¬df.length < MIN_CANDLES_HTF from not_lt.mpr hlen)]
    dsimp only
    rw [h21, h50, h200, hc]
    dsimp only
    simp only [not_lt]

/-- The all-zero higher-timeframe series used against C1. -/
def htfCexDf : List Bar := List.replicate 210 ⟨0, 0, 0, 0, 0⟩

theorem htfCexDf_closes : htfCexDf.map Bar.close = List.replicate 210 (0 : ℚ) := by
  unfold htfCexDf
  rw [List.map_replicate]

theorem htfCexDf_length : htfCexDf.length = 210 := by
  unfold htfCexDf
  rw [List.length_replicate]

theorem htfCexDf_ema21 : emaLast 21 (htfCexDf.map Bar.close) = some 0 := by
  rw [htfCexDf_closes]
  exact emaLast_replicate 21 210 0 (by norm_num) (by norm_num)

theorem htfCexDf_ema50 : emaLast 50 (htfCexDf.map Bar.close) = some 0 := by
  rw [htfCexDf_closes]
  exact emaLast_replicate 50 210 0 (by norm_num) (by norm_num)

theorem htfCexDf_ema200 : emaLast 200 (htfCexDf.map Bar.close) = some 0 := by
  rw [htfCexDf_closes]
  exact emaLast_replicate 200 210 0 (by norm_num) (by norm_num)

theorem htfCexDf_last : (htfCexDf.map Bar.close).getLast? = some 0 := by
  rw [htfCexDf_closes]
  exact getLast?_replicate_succ 209 0

/-- C1 counterexample: on a 210-bar series with constant close, EMA21 equals
EMA50 (and close equals EMA200), yet `compute_htf_trend` returns -1 where the
claim as stated demands 0. -/
theorem claim_C1_cex :
    htfCexDf.length = 210 ∧
    emaLast 21 (htfCexDf.map Bar.close) = some 0 ∧
    emaLast 50 (htfCexDf.map Bar.close) = some 0 ∧
    emaLast 200 (htfCexDf.map Bar.close) = some 0 ∧
    (htfCexDf.map Bar.close).getLast? = some 0 ∧
    compute_htf_trend htfCexDf = -1 := by
  refine ⟨htfCexDf_length, htfCexDf_ema21, htfCexDf_ema50, htfCexDf_ema200, htfCexDf_last, ?_⟩
  unfold compute_htf_trend
  rw [if_neg (by rw [htfCexDf_length]; norm_num [MIN_CANDLES_HTF])]
  dsimp only
  rw [htfCexDf_closes, emaLast_replicate 21 210 (0 : ℚ) (by norm_num) (by norm_num),
    emaLast_replicate 50 210 (0 : ℚ) (by norm_num) (by norm_num),
    emaLast_replicate 200 210 (0 : ℚ) (by norm_num) (by norm_num),
    getLast?_replicate_succ 209 (0 : ℚ)]
  dsimp only
  rw [if_neg (by norm_num), if_pos (by norm_num)]

/-- Witness for C1: the amended characterization applied to the concrete
210-bar series, and the short-series clause at the empty series. -/
theorem claim_C1_witness :
    compute_htf_trend ([] : List Bar) = 0 ∧
    compute_htf_trend htfCexDf =
      (if (0 : ℚ) < 0 ∧ (0 : ℚ) < 0 then 1
       else if (0 : ℚ) ≤ 0 ∧ (0 : ℚ) ≤ 0 then -1
       else 0) := by
  constructor
  · exact (claim_C1 []).1 (by norm_num)
  · exact (claim_C1 htfCexDf).2 0 0 0 0 (by rw [htfCexDf_length])
      htfCexDf_ema21 htfCexDf_ema50 htfCexDf_ema200 htfCexDf_last

/-- C2 (amended): with entry > 0, ATR > 0, the optional level on the correct
side of the entry, and additionally the pre-rounding risk `|entry - stop|`
greater than `10 ^ (-8)` (so that the 8-decimal rounding of the returned
values cannot collapse the orderings), the stop is strictly below (above) the
entry for a long (short), the take-profits are strictly ordered in the
favorable direction, and each take-profit equals the level at R-multiple
1.5 / 2.5 / 4.0 of the pre-rounding risk, rounded to 8 decimal places. -/
theorem claim_C2 (entry atr : ℚ) (srL srS : Option ℚ)
    (hentry : 0 < entry) (hatr : 0 < atr)
    (hsrL : ∀ s, srL = some s → s < entry) (hsrS : ∀ s, srS = some s → entry < s)
    (hgapL : 1 / 10 ^ 8 < entry - sl_raw "long" entry atr srL)
    (hgapS : 1 / 10 ^ 8 < sl_raw "short" entry atr srS - entry) :
    ((compute_sl_tp "long" entry atr srL).stop_loss < entry ∧
     entry < (compute_sl_tp "long" entry atr srL).tp1 ∧
     (compute_sl_tp "long" entry atr srL).tp1 < (compute_sl_tp "long" entry atr srL).tp2 ∧
     (compute_sl_tp "long" entry atr srL).tp2 < (compute_sl_tp "long" entry atr srL).tp3 ∧
     (compute_sl_tp "long" entry atr srL).tp1 =
       roundDec 8 (entry + (3/2) * (entry - sl_raw "long" entry atr srL)) ∧
     (compute_sl_tp "long" entry atr srL).tp2 =
       roundDec 8 (entry + (5/2) * (entry - sl_raw "long" entry atr srL)) ∧
     (compute_sl_tp "long" entry atr srL).tp3 =
       roundDec 8 (entry + 4 * (entry - sl_raw "long" entry atr srL))) ∧
    ((compute_sl_tp "short" entry atr srS).stop_loss > entry ∧
     entry > (compute_sl_tp "short" entry atr srS).tp1 ∧
     (compute_sl_tp "short" entry atr srS).tp1 > (compute_sl_tp "short" entry atr srS).tp2 ∧
     (compute_sl_tp "short" entry atr srS).tp2 > (compute_sl_tp "short" entry atr srS).tp3 ∧
     (compute_sl_tp "short" entry atr srS).tp1 =
       roundDec 8 (entry - (3/2) * (sl_raw "short" entry atr srS - entry)) ∧
     (compute_sl_tp "short" entry atr srS).tp2 =
       roundDec 8 (entry - (5/2) * (sl_raw "short" entry atr srS - entry)) ∧
     (compute_sl_tp "short" entry atr srS).tp3 =
       roundDec 8 (entry - 4 * (sl_raw "short" entry atr srS - entry))) := by
  have hpow : (0 : ℚ) < 10 ^ 8 := by positivity
  have hhalf : (1 : ℚ) / (2 * 10 ^ 8) < 1 / 10 ^ 8 := by norm_num
  constructor
  · set sl := sl_raw "long" entry atr srL with hsl
    have hcmp : compute_sl_tp "long" entry atr srL =
        ⟨roundDec 8 sl, roundDec 8 (entry + TP_RR_1 * (entry - sl)),
         roundDec 8 (entry + TP_RR_2 * (entry - sl)),
         roundDec 8 (entry + TP_RR_3 * (entry - sl)), TP_RR_1⟩ := by
      unfold compute_sl_tp
      rw [if_pos rfl]
    rw [hcmp]
    have hrisk : 1 / 10 ^ 8 < entry - sl := hgapL
    refine ⟨?_, ?_, ?_, ?_, rfl, rfl, rfl⟩
    · have h1 := roundDec_le 8 sl
      have : (1 : ℚ) / (2 * 10 ^ 8) < entry - sl := lt_trans hhalf hrisk
      dsimp only
      linarith
    · have h1 := le_roundDec 8 (entry + TP_RR_1 * (entry - sl))
      have : (1 : ℚ) / (2 * 10 ^ 8) < TP_RR_1 * (entry - sl) := by
        unfold TP_RR_1
        nlinarith
      dsimp only
      linarith
    · dsimp only
      apply roundDec_lt
      have hd : (entry + TP_RR_2 * (entry - sl)) - (entry + TP_RR_1 * (entry - sl)) =
          entry - sl := by
        unfold TP_RR_1 TP_RR_2
        ring
      rw [hd]
      calc (1 : ℚ) = (1 / 10 ^ 8) * 10 ^ 8 := by norm_num
        _ < (entry - sl) * 10 ^ 8 := by
            exact mul_lt_mul_of_pos_right hrisk hpow
    · dsimp only
      apply roundDec_lt
      have hd : (entry + TP_RR_3 * (entry - sl)) - (entry + TP_RR_2 * (entry - sl)) =
          (3/2) * (entry - sl) := by
        unfold TP_RR_2 TP_RR_3
        ring
      rw [hd]
      calc (1 : ℚ) = (1 / 10 ^ 8) * 10 ^ 8 := by norm_num
        _ < (entry - sl) * 10 ^ 8 := mul_lt_mul_of_pos_right hrisk hpow
        _ ≤ (3/2) * (entry - sl) * 10 ^ 8 := by nlinarith
  · set sl := sl_raw "short" entry atr srS with hsl
    have hcmp : compute_sl_tp "short" entry atr srS =
        ⟨roundDec 8 sl, roundDec 8 (entry - TP_RR_1 * (sl - entry)),
         roundDec 8 (entry - TP_RR_2 * (sl - entry)),
         roundDec 8 (entry - TP_RR_3 * (sl - entry)), TP_RR_1⟩ := by
      unfold compute_sl_tp
      rw [if_neg (by decide)]
    rw [hcmp]
    have hrisk : 1 / 10 ^ 8 < sl - entry := hgapS
    refine ⟨?_, ?_, ?_, ?_, rfl, rfl, rfl⟩
    · have h1 := le_roundDec 8 sl
      have : (1 : ℚ) / (2 * 10 ^ 8) < sl - entry := lt_trans hhalf hrisk
      dsimp only
      linarith
    · have h1 := roundDec_le 8 (entry - TP_RR_1 * (sl - entry))
      have : (1 : ℚ) / (2 * 10 ^ 8) < TP_RR_1 * (sl - entry) := by
        unfold TP_RR_1
        nlinarith
      dsimp only
      linarith
    · dsimp only
      apply roundDec_lt
      have hd : (entry - TP_RR_1 * (sl - entry)) - (entry - TP_RR_2 * (sl - entry)) =
          sl - entry := by
        unfold TP_RR_1 TP_RR_2
        ring
      rw [hd]
      calc (1 : ℚ) = (1 / 10 ^ 8) * 10 ^ 8 := by norm_num
        _ < (sl - entry) * 10 ^ 8 := mul_lt_mul_of_pos_right hrisk hpow
    · dsimp only
      apply roundDec_lt
      have hd : (entry - TP_RR_2 * (sl - entry)) - (entry - TP_RR_3 * (sl - entry)) =
          (3/2) * (sl - entry) := by
        unfold TP_RR_2 TP_RR_3
        ring
      rw [hd]
      calc (1 : ℚ) = (1 / 10 ^ 8) * 10 ^ 8 := by norm_num
        _ < (sl - entry) * 10 ^ 8 := mul_lt_mul_of_pos_right hrisk hpow
        _ ≤ (3/2) * (sl - entry) * 10 ^ 8 := by nlinarith

theorem sl_raw_long_none (entry atr : ℚ) :
    sl_raw "long" entry atr none = entry - SL_ATR_MULTIPLIER * atr := by
  unfold sl_raw
  rw [if_pos rfl]

theorem sl_raw_short_none (entry atr : ℚ) :
    sl_raw "short" entry atr none = entry + SL_ATR_MULTIPLIER * atr := by
  unfold sl_raw
  rw [if_neg (by decide)]

/-- C2 counterexample: with entry 100 and the (admissible) ATR `10 ^ (-12)`,
the returned stop-loss of a long equals the entry exactly — the 8-decimal
rounding collapses the strict ordering the original claim asserts for every
positive ATR. -/
theorem claim_C2_cex :
    (0 : ℚ) < 1 / 10 ^ 12 ∧
    (compute_sl_tp "long" 100 (1 / 10 ^ 12) none).stop_loss = 100 := by
  constructor
  · norm_num
  · have hsl : sl_raw "long" 100 (1 / 10 ^ 12) none = 100 - 3 / (2 * 10 ^ 12) := by
      rw [sl_raw_long_none]
      unfold SL_ATR_MULTIPLIER
      ring
    have hcmp : (compute_sl_tp "long" 100 (1 / 10 ^ 12) none).stop_loss =
        roundDec 8 (sl_raw "long" 100 (1 / 10 ^ 12) none) := by
      unfold compute_sl_tp
      rw [if_pos rfl]
    rw [hcmp, hsl]
    have hr := roundDec_eq_of 8 (10 ^ 10) (100 - 3 / (2 * 10 ^ 12))
      (by push_cast; norm_num) (by push_cast; norm_num)
    rw [hr]
    push_cast
    norm_num

/-- Witness for C2: the amended orderings at entry 100 and ATR 2. -/
theorem claim_C2_witness :
    (compute_sl_tp "long" 100 2 none).stop_loss < 100 ∧
    (100 : ℚ) < (compute_sl_tp "long" 100 2 none).tp1 ∧
    (compute_sl_tp "long" 100 2 none).tp1 < (compute_sl_tp "long" 100 2 none).tp2 ∧
    (compute_sl_tp "long" 100 2 none).tp2 < (compute_sl_tp "long" 100 2 none).tp3 := by
  have h := (claim_C2 100 2 none none (by norm_num) (by norm_num)
    (by intro s hs; cases hs) (by intro s hs; cases hs)
    (by rw [sl_raw_long_none]; unfold SL_ATR_MULTIPLIER; norm_num)
    (by rw [sl_raw_short_none]; unfold SL_ATR_MULTIPLIER; norm_num)).1
  exact ⟨h.1, h.2.1, h.2.2.1, h.2.2.2.1⟩

/-- C4: `generate_signals` returns at most one candidate; any returned
candidate has confidence at least `MIN_CONFIDENCE`; and whenever the long
evaluation of the last bar qualifies, a returned candidate has direction
"long" (the long side is tried first and wins). -/
theorem claim_C4 (df : List Row) (s tf : String) (htf : ℤ) (lv : Option LevelDict) :
    (generate_signals df s tf htf lv).length ≤ 1 ∧
    (∀ c, (generate_signals df s tf htf lv).head? = some c →
      MIN_CONFIDENCE ≤ c.confidence) ∧
    (∀ c prev row, (generate_signals df s tf htf lv).head? = some c →
      df.dropLast.getLast? = some prev → df.getLast? = some row →
      MIN_CONFIDENCE ≤ (evaluate_long row (some prev) htf).1 →
      c.direction = "long") := by
  unfold generate_signals
  by_cases hlen : df.length < 2
  · rw [if_pos hlen]
    refine ⟨by simp, ?_, ?_⟩
    · intro c hc
      cases hc
    · intro c prev row hc
      cases hc
  · rw [if_neg hlen]
    rcases hd : df.dropLast.getLast? with _ | prev0
    · refine ⟨by simp, ?_, ?_⟩
      · intro c hc
        cases hc
      · intro c prev row hc
        cases hc
    · rcases hl : df.getLast? with _ | row0
      · refine ⟨by simp, ?_, ?_⟩
        · intro c hc
          cases hc
        · intro c prev row hc
          cases hc
      · try dsimp only
        rcases hA : row0.atr_14 with _ | a
        · refine ⟨by simp, ?_, ?_⟩
          · intro c hc
            cases hc
          · intro c prev row hc
            cases hc
        · try dsimp only
          by_cases ha : a ≤ 0
          · rw [if_pos ha]
            refine ⟨by simp, ?_, ?_⟩
            · intro c hc
              cases hc
            · intro c prev row hc
              cases hc
          · rw [if_neg ha]
            try dsimp only
            by_cases hlong : MIN_CONFIDENCE ≤ (evaluate_long row0 (some prev0) htf).1
            · rw [if_pos hlong]
              refine ⟨by simp, ?_, ?_⟩
              · intro c hc
                simp only [List.head?_cons, Option.some.injEq] at hc
                rw [← hc]
                exact hlong
              · intro c prev row hc hd2 hl2 hq
                simp only [List.head?_cons, Option.some.injEq] at hc
                rw [← hc]
            · rw [if_neg hlong]
              by_cases hshort : MIN_CONFIDENCE ≤ (evaluate_short row0 (some prev0) htf).1
              · rw [if_pos hshort]
                refine ⟨by simp, ?_, ?_⟩
                · intro c hc
                  simp only [List.head?_cons, Option.some.injEq] at hc
                  rw [← hc]
                  exact hshort
                · intro c prev row hc hd2 hl2 hq
                  have hp := Option.some.inj hd2
                  have hr := Option.some.inj hl2
                  rw [← hp, ← hr] at hq
                  exact absurd hq hlong
              · rw [if_neg hshort]
                refine ⟨by simp, ?_, ?_⟩
                · intro c hc
                  cases hc
                · intro c prev row hc
                  cases hc

/-- The concrete enriched last bar used in witnesses: bullish EMA trend,
RSI 40 (pullback zone), ATR 1. -/
def c4Row : Row := ⟨100, some 1, none, some 40, none, none, none, none, none, some 1⟩

/-- The concrete previous bar used in witnesses (no indicators defined). -/
def c4Prev : Row := ⟨100, none, none, none, none, none, none, none, none, none⟩

theorem evalLong_c4 : (evaluate_long c4Row (some c4Prev) 0).1 = 3/5 := by
  unfold evaluate_long c4Row c4Prev
  norm_num
  have hr := roundDec_eq_of 2 60 (3/5) (by push_cast; norm_num) (by push_cast; norm_num)
  rw [hr]
  push_cast
  norm_num

/-- Witness for C4: on a concrete two-bar series whose long evaluation
qualifies, `generate_signals` emits a single candidate with direction
"long". -/
theorem claim_C4_witness :
    (generate_signals [c4Prev, c4Row] "BTCUSDT" "1h" 0 none).length ≤ 1 ∧
    (∀ c, (generate_signals [c4Prev, c4Row] "BTCUSDT" "1h" 0 none).head? = some c →
      c.direction = "long") := by
  have h := claim_C4 [c4Prev, c4Row] "BTCUSDT" "1h" 0 none
  refine ⟨h.1, ?_⟩
  intro c hc
  exact h.2.2 c c4Prev c4Row hc rfl rfl (by rw [evalLong_c4]; norm_num [MIN_CONFIDENCE])

instance : IsTotal Level (fun a b => b.touches ≤ a.touches) :=
  ⟨fun a b => Nat.le_total b.touches a.touches⟩

instance : IsTrans Level (fun a b => b.touches ≤ a.touches) :=
  ⟨fun _ _ _ hab hbc => le_trans hbc hab⟩

/-- C7: clustering output is sorted by touches descending, and on the raw
swing list `[100, 100.3, 100.5, 105, 105.2, 110]` with tolerance 0.5 percent
the greedy running-mean grouping yields at least two clusters, with the
3-touch cluster `{100, 100.3, 100.5}` ranked first and priced at its mean
rounded to 8 decimal places. -/
theorem claim_C7 :
    (∀ (values : List ℚ) (tol : ℚ),
      List.Sorted (fun a b : Level => b.touches ≤ a.touches) (cluster_levels values tol)) ∧
    2 ≤ (cluster_levels [100, 100.3, 100.5, 105, 105.2, 110] (1/2)).length ∧
    (cluster_levels [100, 100.3, 100.5, 105, 105.2, 110] (1/2)).head? =
      some ⟨roundDec 8 ((100 + 100.3 + 100.5) / 3), 3⟩ ∧
    roundDec 8 ((100 + 100.3 + 100.5) / 3) = 10026666667 / 10 ^ 8 := by
  have hsort : List.insertionSort (· ≤ ·) ([100, 100.3, 100.5, 105, 105.2, 110] : List ℚ) =
      [100, 100.3, 100.5, 105, 105.2, 110] := by
    norm_num [List.insertionSort, List.orderedInsert]
  have hgo : clusterGo (1/2) [100] [100.3, 100.5, 105, 105.2, 110] =
      [[100, 100.3, 100.5], [105, 105.2], [110]] := by
    norm_num [clusterGo, mean, abs_of_nonneg]
  have hmean : mean [100, 100.3, 100.5] = (100 + 100.3 + 100.5) / 3 := by
    unfold mean
    norm_num
  have hrun : cluster_levels [100, 100.3, 100.5, 105, 105.2, 110] (1/2) =
      [⟨roundDec 8 ((100 + 100.3 + 100.5) / 3), 3⟩,
       ⟨roundDec 8 (mean [105, 105.2]), 2⟩,
       ⟨roundDec 8 (mean [110]), 1⟩] := by
    unfold cluster_levels
    rw [hsort]
    dsimp only
    rw [hgo, ← hmean]
    norm_num [List.insertionSort, List.orderedInsert]
  refine ⟨?_, ?_, ?_, ?_⟩
  · intro values tol
    unfold cluster_levels
    rcases List.insertionSort (· ≤ ·) values with _ | ⟨s, rest⟩
    · exact List.sorted_nil
    · exact List.sorted_insertionSort _ _
  · rw [hrun]
    norm_num
  · rw [hrun]
    rfl
  · have hr := roundDec_eq_of 8 10026666667 ((100 + 100.3 + 100.5) / 3)
      (by push_cast; norm_num) (by push_cast; norm_num)
    rw [hr]
    push_cast
    norm_num

theorem composite_range {t v w r : ℚ}
    (ht0 : 0 ≤ t) (ht1 : t ≤ 100) (hv0 : 0 ≤ v) (hv1 : v ≤ 100)
    (hw0 : 0 ≤ w) (hw1 : w ≤ 100) (hr0 : 0 ≤ r) (hr1 : r ≤ 100) :
    0 ≤ (t * 30 + v * 25 + w * 20 + r * 25) / (30 + 25 + 20 + 25) ∧
    (t * 30 + v * 25 + w * 20 + r * 25) / (30 + 25 + 20 + 25) ≤ 100 := by
  constructor
  · apply div_nonneg
    · linarith
    · norm_num
  · rw [div_le_iff (by norm_num : (0 : ℚ) < 30 + 25 + 20 + 25)]
    linarith

/-- C9 (amended): on a series of at least 50 bars with non-negative volumes,
positive prices, and additionally `low <= high` on every bar (without which
the first bar's true range, hence ATR, can be negative and the volatility
sub-score unbounded below), `compute_score` does not skip, each defined
sub-score lies in [0, 100], and the composite score lies in [0, 100]. -/
theorem claim_C9 (df : List Bar)
    (hlen : 50 ≤ df.length)
    (hvol : ∀ b ∈ df, 0 ≤ b.volume)
    (hpx : ∀ b ∈ df, 0 < b.«open» ∧ 0 < b.high ∧ 0 < b.low ∧ 0 < b.close)
    (hhl : ∀ b ∈ df, b.low ≤ b.high) :
    (compute_score df).skip = false ∧
    0 ≤ (compute_score df).score ∧ (compute_score df).score ≤ 100 ∧
    (∀ q, (compute_score df).trend_score = some q → 0 ≤ q ∧ q ≤ 100) ∧
    (∀ q, (compute_score df).volume_score = some q → 0 ≤ q ∧ q ≤ 100) ∧
    (∀ q, (compute_score df).volatility_score = some q → 0 ≤ q ∧ q ≤ 100) ∧
    (∀ q, (compute_score df).rsi_score = some q → 0 ≤ q ∧ q ≤ 100) := by
  have hne : df ≠ [] := by
    intro h
    rw [h] at hlen
    simp at hlen
  obtain ⟨last, hlast⟩ : ∃ b, df.getLast? = some b :=
    Option.isSome_iff_exists.mp (List.getLast?_isSome.mpr hne)
  have hlastmem : last ∈ df := List.mem_of_mem_getLast? hlast
  obtain ⟨hT0, hT1⟩ := trendScore_range (emaLast 21 (df.map Bar.close))
    (emaLast 50 (df.map Bar.close)) (emaLast 200 (df.map Bar.close)) last.close
  obtain ⟨hV0, hV1⟩ := volumeScore_range (volRatioLast df) (volRatioLast_nonneg df hvol)
  obtain ⟨hW0, hW1⟩ := volatilityScore_range (atrLast df) last.close (atrLast_nonneg df hhl)
  obtain ⟨hR0, hR1⟩ := rsiScore_range (rsiLast (df.map Bar.close))
  obtain ⟨hC0, hC1⟩ := composite_range hT0 hT1 hV0 hV1 hW0 hW1 hR0 hR1
  unfold compute_score
  rw [if_neg (show ¬df.length < MIN_CANDLES_SCREEN from not_lt.mpr hlen), hlast]
  dsimp only
  refine ⟨rfl, ?_, ?_, ?_, ?_, ?_, ?_⟩
  · exact (roundDec_range 1 hC0 hC1).1
  · exact (roundDec_range 1 hC0 hC1).2
  · intro q hq
    have := Option.some.inj hq
    rw [← this]
    exact roundDec_range 1 hT0 hT1
  · intro q hq
    have := Option.some.inj hq
    rw [← this]
    exact roundDec_range 1 hV0 hV1
  · intro q hq
    have := Option.some.inj hq
    rw [← this]
    exact roundDec_range 1 hW0 hW1
  · intro q hq
    have := Option.some.inj hq
    rw [← this]
    exact roundDec_range 1 hR0 hR1

theorem diffs_replicate (c : ℚ) : ∀ n, diffs (List.replicate (n + 1) c) = List.replicate n 0 := by
  intro n
  induction n with
  | zero => rfl
  | succ m ih =>
    have h2 : List.replicate (m + 2) c = c :: c :: List.replicate m c := by
      rw [List.replicate_succ, List.replicate_succ]
    rw [h2]
    have h3 : diffs (c :: c :: List.replicate m c) = (c - c) :: diffs (c :: List.replicate m c) := rfl
    rw [h3, show c - c = 0 by ring, ← List.replicate_succ c m, ih, ← List.replicate_succ]

theorem trRest_unit : ∀ n, trRest 1 (List.replicate n ⟨1, 1, 1, 1, 1⟩) = List.replicate n 0 := by
  intro n
  induction n with
  | zero => rfl
  | succ m ih =>
    rw [List.replicate_succ, trRest]
    have hh : max ((1 : ℚ) - 1) (max |(1 : ℚ) - 1| |(1 : ℚ) - 1|) = 0 := by
      norm_num
    rw [show (⟨1, 1, 1, 1, 1⟩ : Bar).high = 1 from rfl, show (⟨1, 1, 1, 1, 1⟩ : Bar).low = 1 from rfl,
      show (⟨1, 1, 1, 1, 1⟩ : Bar).close = 1 from rfl, hh, ih, List.replicate_succ]

theorem wilder_zero_fold : ∀ (n : ℕ) (a : ℚ),
    (List.replicate n (0 : ℚ)).foldl (fun x t => (13 * x + t) / 14) a = (13/14) ^ n * a := by
  intro n
  induction n with
  | zero =>
    intro a
    norm_num
  | succ m ih =>
    intro a
    rw [List.replicate_succ]
    have h1 : (0 :: List.replicate m (0 : ℚ)).foldl (fun x t => (13 * x + t) / 14) a =
        (List.replicate m (0 : ℚ)).foldl (fun x t => (13 * x + t) / 14) ((13 * a + 0) / 14) := rfl
    rw [h1, ih]
    ring

/-- A bar with positive prices but `high < low` (1 vs 1000): the data model
constrains prices to be positive but nothing forces `high >= low`. -/
def badBar : Bar := ⟨1, 1, 1000, 1, 1⟩

/-- A constant unit bar. -/
def unitBar : Bar := ⟨1, 1, 1, 1, 1⟩

/-- The 50-bar series used against C9: one malformed bar followed by 49
constant bars. -/
def scoreCexDf : List Bar := badBar :: List.replicate 49 unitBar

theorem scoreCexDf_closes : scoreCexDf.map Bar.close = List.replicate 50 (1 : ℚ) := by
  unfold scoreCexDf badBar unitBar
  rw [List.map_cons, List.map_replicate]
  rw [← List.replicate_succ]

theorem scoreCexDf_vols : scoreCexDf.map Bar.volume = List.replicate 50 (1 : ℚ) := by
  unfold scoreCexDf badBar unitBar
  rw [List.map_cons, List.map_replicate]
  rw [← List.replicate_succ]

theorem scoreCexDf_length : scoreCexDf.length = 50 := by
  unfold scoreCexDf
  rw [List.length_cons, List.length_replicate]

theorem scoreCexDf_getLast : scoreCexDf.getLast? = some unitBar :=
  getLast?_cons_replicate 48 badBar unitBar

theorem emaLast_200_rep50 : emaLast 200 (List.replicate 50 (1 : ℚ)) = none := by
  rw [List.replicate_succ]
  unfold emaLast
  dsimp only
  rw [List.length_replicate]
  rw [if_pos (by norm_num)]

theorem scoreCexDf_trList : trList scoreCexDf = (-999 : ℚ) :: List.replicate 49 0 := by
  unfold scoreCexDf trList
  dsimp only
  rw [show badBar.high - badBar.low = (-999 : ℚ) by unfold badBar; norm_num,
    show badBar.close = (1 : ℚ) from rfl]
  rw [show List.replicate 49 unitBar = List.replicate 49 (⟨1, 1, 1, 1, 1⟩ : Bar) from rfl]
  rw [trRest_unit 49]

theorem scoreCexDf_atr : atrLast scoreCexDf = some ((13/14 : ℚ) ^ 36 * ((-999 + 0) / 14)) := by
  unfold atrLast
  rw [if_neg (by rw [scoreCexDf_length]; norm_num)]
  dsimp only
  rw [scoreCexDf_trList]
  rw [List.take_succ_cons, List.take_replicate, show min 13 49 = 13 from rfl]
  rw [List.sum_cons, List.sum_replicate, smul_zero]
  rw [List.drop_succ_cons, List.drop_replicate, show (49 - 13 : ℕ) = 36 from rfl]
  rw [wilder_zero_fold]

theorem scoreCexDf_volratio : volRatioLast scoreCexDf = some 1 := by
  unfold volRatioLast
  rw [scoreCexDf_vols]
  dsimp only
  have hsma : smaLast 20 (List.replicate 50 (1 : ℚ)) = some 1 := by
    unfold smaLast
    rw [List.length_replicate, if_neg (by norm_num), List.drop_replicate, List.sum_replicate]
    rw [show (50 - (50 - 20) : ℕ) = 20 from rfl, nsmul_eq_mul]
    norm_num [Option.some.injEq]
  have hlast2 : (List.replicate 50 (1 : ℚ)).getLast? = some 1 := getLast?_replicate_succ 49 1
  rw [hsma, hlast2]
  dsimp only
  rw [if_pos (by norm_num)]
  norm_num [Option.some.injEq]

theorem rsiLast_rep50 : rsiLast (List.replicate 50 (1 : ℚ)) = none := by
  unfold rsiLast
  rw [List.length_replicate, if_neg (by norm_num)]
  dsimp only
  rw [diffs_replicate 1 49]
  rw [List.map_replicate, List.map_replicate]
  rw [show ((0 : ℚ) ⊔ 0) = 0 by norm_num]
  rw [show ((-0 : ℚ) ⊔ 0) = 0 by norm_num]
  rw [ewmFold_const (1/14) 0 49]
  rw [if_pos rfl, if_pos rfl]

/-- C9 counterexample: `scoreCexDf` has 50 bars, non-negative volumes and
positive prices (the hypotheses of the claim as stated), yet its composite
score is negative: the malformed first bar (high < low) drives ATR, hence the
volatility sub-score, far below zero. -/
theorem claim_C9_cex :
    scoreCexDf.length = 50 ∧
    (∀ b ∈ scoreCexDf, 0 ≤ b.volume) ∧
    (∀ b ∈ scoreCexDf, 0 < b.«open» ∧ 0 < b.high ∧ 0 < b.low ∧ 0 < b.close) ∧
    (compute_score scoreCexDf).skip = false ∧
    (compute_score scoreCexDf).score < 0 := by
  have hAneg : ((13/14 : ℚ) ^ 36 * ((-999 + 0) / 14)) < 0 := by
    apply mul_neg_of_pos_of_neg
    · positivity
    · norm_num
  have hts : trendScore (some 1) (some 1) none (1 : ℚ) = 25 := by
    unfold trendScore
    dsimp only
    rw [if_neg (by norm_num)]
    norm_num [min_def, max_def]
  have hvs2 : volumeScore (some (1 : ℚ)) = 50 := by
    unfold volumeScore
    dsimp only
    norm_num [min_def]
  have hp100 : ((13/14 : ℚ) ^ 36 * ((-999 + 0) / 14)) / 1 * 100 < 0 := by
    rw [div_one]
    linarith
  have hvols : volatilityScore (some ((13/14 : ℚ) ^ 36 * ((-999 + 0) / 14))) 1 =
      ((13/14 : ℚ) ^ 36 * ((-999 + 0) / 14)) / 1 * 100 * 100 := by
    unfold volatilityScore
    dsimp only
    rw [if_pos (by norm_num : (0 : ℚ) < 1)]
    rw [if_neg (fun hcon => absurd hcon.1 (by linarith)), if_pos (by linarith)]
  have hAlt : ((13/14 : ℚ) ^ 36 * ((-999 + 0) / 14)) < -2 := by
    have hk : (1/25 : ℚ) < (13/14) ^ 36 := by norm_num
    have hc : ((-999 + 0 : ℚ) / 14) < 0 := by norm_num
    have hm := mul_lt_mul_of_neg_right hk hc
    have h2 : (1/25 : ℚ) * ((-999 + 0) / 14) < -2 := by norm_num
    linarith
  refine ⟨scoreCexDf_length, ?_, ?_, ?_, ?_⟩
  · intro b hb
    rcases List.mem_cons.mp hb with rfl | h
    · unfold badBar
      norm_num
    · rw [List.eq_of_mem_replicate h]
      unfold unitBar
      norm_num
  · intro b hb
    rcases List.mem_cons.mp hb with rfl | h
    · unfold badBar
      norm_num
    · rw [List.eq_of_mem_replicate h]
      unfold unitBar
      norm_num
  · unfold compute_score
    rw [if_neg (by rw [scoreCexDf_length]; norm_num [MIN_CANDLES_SCREEN]), scoreCexDf_getLast]
  · unfold compute_score
    rw [if_neg (by rw [scoreCexDf_length]; norm_num [MIN_CANDLES_SCREEN]), scoreCexDf_getLast]
    dsimp only
    rw [scoreCexDf_closes, show unitBar.close = (1 : ℚ) from rfl]
    rw [emaLast_replicate 21 50 1 (by norm_num) (by norm_num),
      emaLast_replicate 50 50 1 (by norm_num) (by norm_num),
      emaLast_200_rep50, rsiLast_rep50, scoreCexDf_volratio, scoreCexDf_atr]
    rw [hts, hvs2, hvols, show rsiScore none = 50 from rfl]
    apply lt_of_le_of_lt (roundDec_le 1 _)
    rw [div_one]
    have h100 : (30 + 25 + 20 + 25 : ℚ) = 100 := by norm_num
    rw [h100]
    linarith

/-- Witness for C9 at the constant 50-bar series. -/
theorem claim_C9_witness :
    (compute_score (List.replicate 50 unitBar)).skip = false ∧
    0 ≤ (compute_score (List.replicate 50 unitBar)).score ∧
    (compute_score (List.replicate 50 unitBar)).score ≤ 100 := by
  have h := claim_C9 (List.replicate 50 unitBar)
    (by rw [List.length_replicate])
    (by intro b hb; rw [List.eq_of_mem_replicate hb]; unfold unitBar; norm_num)
    (by intro b hb; rw [List.eq_of_mem_replicate hb]; unfold unitBar; norm_num)
    (by intro b hb; rw [List.eq_of_mem_replicate hb]; unfold unitBar; norm_num)
  exact ⟨h.1, h.2.1, h.2.2.1⟩
